import Mathlib

/-!
# Verification of the gdbstub command dispatcher and resume engine

Shallow embedding of `src/gdbstub_impl/ext/base.rs` (the `handle_base`
dispatcher, `do_vcont` resume loop and `eval_breakpoint_bytecode`) together
with the small writer/connection interfaces it relies on.  Pure data
(strings, byte lists, naturals) stands in for the Rust buffers; the
user-supplied target, architecture and connection are modelled as explicit
records of oracle functions, and the calls made into them are recorded as
traces so that claims about "which tid is passed to the target" are
expressible.
-/

namespace Gdbstub

/-! ## Basic protocol data types (from `protocol` / `target::ext::base`) -/

/-- Thread-id selector inside a `ThreadId` (protocol `IdKind`). -/
inductive IdKind
  | Any
  | All
  | WithID (tid : Nat)
  deriving DecidableEq, Repr

/-- A protocol thread-id: optional process id plus thread id. -/
structure ThreadId where
  pid : Option IdKind
  tid : IdKind
  deriving DecidableEq, Repr

/-- The `TidSelector` of `target::ext::base::multithread` (no `Any`). -/
inductive TidSelector
  | All
  | WithID (tid : Nat)
  deriving DecidableEq, Repr

/-- Watchpoint kind (`target::ext::breakpoints::WatchKind`). -/
inductive WatchKind
  | Write
  | Read
  | ReadWrite
  deriving DecidableEq, Repr

/-- Resume actions handed to the target (`ResumeAction`). -/
inductive ResumeAction
  | Step
  | Continue
  deriving DecidableEq, Repr

/-- Parsed `vCont` action kind (protocol `VContKind`); the with-signal
variants carry the signal byte. -/
inductive VContKind
  | Step
  | Continue
  | StepWithSig (sig : Nat)
  | ContinueWithSig (sig : Nat)
  deriving DecidableEq, Repr

/-- One action of a `vCont` packet (protocol `VContAction`). -/
structure VContAction where
  kind : VContKind
  thread : Option ThreadId
  deriving DecidableEq, Repr

/-- Multi-thread stop reason (`ThreadStopReason`); addresses are naturals. -/
inductive ThreadStopReason
  | DoneStep
  | GdbInterrupt
  | Halted
  | SwBreak (tid : Nat)
  | HwBreak (tid : Nat)
  | Watch (tid : Nat) (kind : WatchKind) (addr : Nat)
  | Signal (code : Nat)
  deriving DecidableEq, Repr

/-- Single-thread stop reason (`singlethread::StopReason`). -/
inductive StopReason
  | DoneStep
  | GdbInterrupt
  | Halted
  | SwBreak
  | HwBreak
  | Watch (kind : WatchKind) (addr : Nat)
  | Signal (code : Nat)
  deriving DecidableEq, Repr

/-- Reason the session ends (`DisconnectReason`). -/
inductive DisconnectReason
  | TargetHalted
  | Disconnect
  | Kill
  deriving DecidableEq, Repr

/-- Handler outcome (`HandlerStatus`). -/
inductive HandlerStatus
  | Handled
  | NeedsOK
  | Disconnect (reason : DisconnectReason)
  deriving DecidableEq, Repr

/-- Session-fatal / non-fatal error taxonomy (`Error<T, C>`); payloads of
transport and parse errors are elided, target errors carry an abstract
numeric payload. -/
inductive GdbError
  | ConnectionRead
  | ConnectionWrite
  | PacketParse
  | PacketUnexpected
  | TargetError (e : Nat)
  | NonFatalError (code : Nat)
  | TargetMismatch
  | ResumeWithSignalUnimplemented
  | UnsupportedStopReason
  deriving DecidableEq, Repr

/-- Result of a call into the target (`TargetResult`): success, a fatal
error, or a non-fatal errno surfaced to GDB as `E<code>`. -/
inductive TgtOutcome (α : Type)
  | ok (a : α)
  | fatal (e : Nat)
  | nonFatal (code : Nat)
  deriving DecidableEq, Repr

/-- The `handle_error` glue: a fatal target error aborts the session, a
non-fatal errno becomes `NonFatalError`. -/
def handleErr {α : Type} : TgtOutcome α → Except GdbError α
  | .ok a => .ok a
  | .fatal e => .error (.TargetError e)
  | .nonFatal code => .error (.NonFatalError code)

/-- Modelled from the spec (§3): the sentinel tid used whenever the target
exposes only single-thread operations (`SINGLE_THREAD_TID = 1`; the
crate-root constant is not under `src/`). -/
def SINGLE_THREAD_TID : Nat := 1

/-- Modelled from the spec (§3): the fixed sentinel pid used to satisfy
multiprocess-syntax clients (`FAKE_PID`; the crate-root constant is not
under `src/`, its concrete value is immaterial to the claims). -/
def FAKE_PID : Nat := 1

/-- Session state owned by `GdbStubImpl` (spec §3 "Session state"; the
packet buffer itself is elided). -/
structure SessionState where
  current_mem_tid : Nat
  current_resume_tid : TidSelector
  no_ack_mode : Bool
  deriving DecidableEq, Repr

/-! ## ResponseWriter primitives

The `ResponseWriter` lives outside `src/`; its primitives are modelled from
the spec (§4.3): reply bodies are strings, `write_num` is lowercase hex,
`write_hex_buf` is two lowercase hex digits per byte, `write_binary`
escapes `{0x23, 0x24, 0x7D, 0x2A}` with `0x7D` and XOR `0x20` (run-length
encoding, which the spec leaves to profitability, is not applied). -/

/-- Modelled from the spec (§4.3): `write_num`, lowercase hex of an
integer. -/
def hexNum (n : Nat) : String := String.mk (Nat.toDigits 16 n)

/-- Two-lowercase-hex-digit encoding of one byte. -/
def hexByte (b : Nat) : String :=
  String.mk [Nat.digitChar (b / 16 % 16), Nat.digitChar (b % 16)]

/-- Modelled from the spec (§4.3): `write_hex_buf`, big-endian lowercase
hex of a byte buffer. -/
def hexBuf (bs : List Nat) : String := String.join (bs.map hexByte)

/-- Modelled from the spec (§4.3/§6): RSP binary encoding; the bytes
`0x23 #`, `0x24 $`, `0x7d RBRACE`, `0x2a STAR` are escaped as `0x7D`
followed by the byte XOR `0x20`. -/
def binEnc (bs : List Nat) : List Nat :=
  bs.flatMap fun b =>
    if b = 0x23 ∨ b = 0x24 ∨ b = 0x7d ∨ b = 0x2a then [0x7d, b ^^^ 0x20] else [b]

/-- Byte list rendered as the reply-body string (one char per byte). -/
def bytesToStr (bs : List Nat) : String := String.mk (bs.map Char.ofNat)

/-- Modelled from the spec (§6): one `IdKind` as written on the wire
(`-1` all, `0` any, big-endian lowercase hex otherwise). -/
def idKindStr : IdKind → String
  | .All => "-1"
  | .Any => "0"
  | .WithID n => hexNum n

/-- Modelled from the spec (§6): `write_thread_id`; the multiprocess form
is `p<pid>.<tid>` when a pid is present. -/
def writeThreadId (t : ThreadId) : String :=
  match t.pid with
  | some p => "p" ++ idKindStr p ++ "." ++ idKindStr t.tid
  | none => idKindStr t.tid

/-- Modelled from the spec (§4.4): the dispatcher appends `OK` to the
reply body of a handler that returns `NeedsOK`. -/
def finishBody (h : HandlerStatus) (body : String) : String :=
  match h with
  | .NeedsOK => body ++ "OK"
  | _ => body

/-- Modelled from the spec (§7): whether an error terminates the session
(`NonFatalError` is the only survivable one). -/
def errorIsFatal : GdbError → Bool
  | .NonFatalError _ => false
  | _ => true

/-- Modelled from the spec (§7): a `NonFatalError(code)` is surfaced to
GDB as the reply `E<code-hex>`. -/
def surfaceNonFatal : GdbError → Option String
  | .NonFatalError code => some ("E" ++ hexByte code)
  | _ => none

/-! ## Target capability model (for `qSupported`) -/

/-- Which optional extended-mode configuration hooks the target's
`ExtendedMode` implementation supplies. -/
structure ExtCaps where
  configure_aslr : Bool
  configure_env : Bool
  configure_startup_shell : Bool
  configure_working_dir : Bool
  deriving DecidableEq, Repr

/-- Which optional breakpoint sub-capabilities the target's `Breakpoints`
implementation supplies. -/
structure BreakCaps where
  sw_breakpoint : Bool
  hw_breakpoint : Bool
  hw_watchpoint : Bool
  breakpoint_agent : Bool
  deriving DecidableEq, Repr

/-- The capability shape of a target as queried by `qSupported`:
`extended_mode()`, `agent()`, `breakpoints()` accessors plus the
architecture's optional target-description XML (as its byte list). -/
structure TargetCaps where
  extended_mode : Option ExtCaps
  agent : Bool
  breakpoints : Option BreakCaps
  xml : Option (List Nat)
  deriving DecidableEq, Repr

/-- True iff the target has extended mode and the given hook on it. -/
def extGate (t : TargetCaps) (f : ExtCaps → Bool) : Bool :=
  match t.extended_mode with
  | none => false
  | some ops => f ops

/-- True iff the target has breakpoints and the given sub-capability. -/
def bpGate (t : TargetCaps) (f : BreakCaps → Bool) : Bool :=
  match t.breakpoints with
  | none => false
  | some ops => f ops

/-- The advertised feature strings, as an abstract token list. -/
inductive Feature
  | vContSupported
  | multiprocess
  | QStartNoAckMode
  | QDisableRandomization
  | QEnvironmentHexEncoded
  | QEnvironmentUnset
  | QEnvironmentReset
  | QStartupWithShell
  | QSetWorkingDir
  | QAgent
  | swbreak
  | hwbreak
  | BreakpointCommands
  | ConditionalBreakpoints
  | qXferFeaturesRead
  deriving DecidableEq, Repr

/-- The wire string of each feature (each is written with a leading `;`
by the handler). -/
def featureStr : Feature → String
  | .vContSupported => "vContSupported+"
  | .multiprocess => "multiprocess+"
  | .QStartNoAckMode => "QStartNoAckMode+"
  | .QDisableRandomization => "QDisableRandomization+"
  | .QEnvironmentHexEncoded => "QEnvironmentHexEncoded+"
  | .QEnvironmentUnset => "QEnvironmentUnset+"
  | .QEnvironmentReset => "QEnvironmentReset+"
  | .QStartupWithShell => "QStartupWithShell+"
  | .QSetWorkingDir => "QSetWorkingDir+"
  | .QAgent => "QAgent+"
  | .swbreak => "swbreak+"
  | .hwbreak => "hwbreak+"
  | .BreakpointCommands => "BreakpointCommands+"
  | .ConditionalBreakpoints => "ConditionalBreakpoints+"
  | .qXferFeaturesRead => "qXfer:features:read+"

/-- Translation of `Base::qSupported` (base.rs:19-75) as a string builder:
`PacketSize=` and the buffer length, then each gated feature written as
`;<feature>+` in source order. -/
def handle_qSupported (t : TargetCaps) (packet_buffer_len : Nat) : String :=
  let s := "PacketSize=" ++ hexNum packet_buffer_len
  let s := s ++ ";vContSupported+"
  let s := s ++ ";multiprocess+"
  let s := s ++ ";QStartNoAckMode+"
  let s :=
    match t.extended_mode with
    | none => s
    | some ops =>
      let s := if ops.configure_aslr then s ++ ";QDisableRandomization+" else s
      let s :=
        if ops.configure_env then
          s ++ ";QEnvironmentHexEncoded+" ++ ";QEnvironmentUnset+" ++ ";QEnvironmentReset+"
        else s
      let s := if ops.configure_startup_shell then s ++ ";QStartupWithShell+" else s
      if ops.configure_working_dir then s ++ ";QSetWorkingDir+" else s
  let s := if t.agent then s ++ ";QAgent+" else s
  let s :=
    match t.breakpoints with
    | none => s
    | some ops =>
      let s := if ops.sw_breakpoint then s ++ ";swbreak+" else s
      let s := if ops.hw_breakpoint || ops.hw_watchpoint then s ++ ";hwbreak+" else s
      if ops.breakpoint_agent then s ++ ";BreakpointCommands+" ++ ";ConditionalBreakpoints+" else s
  if t.xml.isSome then s ++ ";qXfer:features:read+" else s

/-- The gate of every feature, read off the same accessors the handler
queries. -/
def featureGate (t : TargetCaps) : Feature → Bool
  | .vContSupported => true
  | .multiprocess => true
  | .QStartNoAckMode => true
  | .QDisableRandomization => extGate t (fun o => o.configure_aslr)
  | .QEnvironmentHexEncoded => extGate t (fun o => o.configure_env)
  | .QEnvironmentUnset => extGate t (fun o => o.configure_env)
  | .QEnvironmentReset => extGate t (fun o => o.configure_env)
  | .QStartupWithShell => extGate t (fun o => o.configure_startup_shell)
  | .QSetWorkingDir => extGate t (fun o => o.configure_working_dir)
  | .QAgent => t.agent
  | .swbreak => bpGate t (fun o => o.sw_breakpoint)
  | .hwbreak => bpGate t (fun o => o.hw_breakpoint || o.hw_watchpoint)
  | .BreakpointCommands => bpGate t (fun o => o.breakpoint_agent)
  | .ConditionalBreakpoints => bpGate t (fun o => o.breakpoint_agent)
  | .qXferFeaturesRead => t.xml.isSome

/-- All features, in the order the handler writes them. -/
def allFeatures : List Feature :=
  [.vContSupported, .multiprocess, .QStartNoAckMode,
   .QDisableRandomization,
   .QEnvironmentHexEncoded, .QEnvironmentUnset, .QEnvironmentReset,
   .QStartupWithShell, .QSetWorkingDir,
   .QAgent,
   .swbreak, .hwbreak, .BreakpointCommands, .ConditionalBreakpoints,
   .qXferFeaturesRead]

/-- The feature tokens a given target advertises, in emission order. -/
def qSupportedFeatures (t : TargetCaps) : List Feature :=
  allFeatures.filter (featureGate t)

/-- Features rendered onto an existing reply prefix, in list order. -/
def featuresAppend (s : String) (fs : List Feature) : String :=
  fs.foldl (fun acc f => acc ++ (";" ++ featureStr f)) s

/-! ## Breakpoint-agent bytecode evaluation (`eval_breakpoint_bytecode`) -/

/-- ASCII bytes of a string. -/
def strBytes (s : String) : List Nat := s.data.map Char.toNat

/-- The `O` console packet emitted on a non-fatal condition-bytecode
evaluation error (base.rs:611-616; it is flushed on a fresh
`ResponseWriter`, i.e. as its own packet, not into the pending reply). -/
def consoleCondErr : String :=
  "O" ++ hexBuf (strBytes "error while evaluating breakpoint ")
      ++ hexBuf (strBytes "condition\n")

/-- The `O` console packet emitted on a non-fatal command-bytecode
evaluation error (base.rs:644-650). -/
def consoleCmdErr : String :=
  "O" ++ hexBuf (strBytes "error while evaluating breakpoint ")
      ++ hexBuf (strBytes "command\n")

/-- The world `eval_breakpoint_bytecode` interacts with: the stopped
thread's registers (modelled by their program counter, the only field the
function reads), the condition/command bytecode ids attached to an
address (`get_breakpoint_bytecode` enumerates them in order), and the
outcome of `evaluate` on each id. -/
structure AgentModel where
  readRegs : TgtOutcome Nat
  condIds : Nat → List Nat
  cmdIds : Nat → List Nat
  evalBc : Nat → TgtOutcome Nat

/-- Result of `eval_breakpoint_bytecode`: the combined condition value,
the `O` console packets flushed along the way, and the trace of bytecode
ids passed to `target.evaluate`, in call order. -/
structure EvalOut where
  condition : Bool
  console : List String
  evaluated : List Nat
  deriving DecidableEq, Repr

/-- One turn of the `eval_condition` closure (base.rs:601-625): a
successful evaluation ORs `val != 0` onto the running `Option Bool`; a
fatal error is stored into a local `err` that the source never re-checks
(so it is swallowed and the running value is untouched); a non-fatal
error emits a console packet and leaves the condition unresolved.  The
third component records the id handed to `target.evaluate`. -/
def condFoldStep (m : AgentModel) (acc : Option Bool × List String × List Nat)
    (id : Nat) : Option Bool × List String × List Nat :=
  match m.evalBc id with
  | .ok v => (some (decide (v ≠ 0) || acc.1.getD false), acc.2.1, acc.2.2 ++ [id])
  | .fatal _ => (acc.1, acc.2.1, acc.2.2 ++ [id])
  | .nonFatal _ => (acc.1, acc.2.1 ++ [consoleCondErr], acc.2.2 ++ [id])

/-- The condition bytecodes of an address, evaluated in enumeration
order starting from the unresolved condition `none`. -/
def condFoldRun (m : AgentModel) (ids : List Nat) :
    Option Bool × List String × List Nat :=
  ids.foldl (condFoldStep m) (none, [], [])

/-- The combined condition at a PC: the OR of the evaluated conditions,
defaulting to true when unresolved (`condition.unwrap_or(true)`,
base.rs:635). -/
def condCombined (m : AgentModel) (pc : Nat) : Bool :=
  (condFoldRun m (m.condIds pc)).1.getD true

/-- One turn of the `eval_command` closure (base.rs:637-659): results of
successful evaluations are discarded, a fatal error propagates out of
the enumeration, a non-fatal error emits a console packet. -/
def cmdFoldStep (m : AgentModel) (acc : Except Nat (List String × List Nat))
    (id : Nat) : Except Nat (List String × List Nat) :=
  match acc with
  | .error e => .error e
  | .ok (out, tr) =>
    match m.evalBc id with
    | .ok _ => .ok (out, tr ++ [id])
    | .fatal e => .error e
    | .nonFatal _ => .ok (out ++ [consoleCmdErr], tr ++ [id])

/-- The command bytecodes of an address, evaluated in enumeration
order. -/
def cmdFoldRun (m : AgentModel) (ids : List Nat) (out0 : List String)
    (tr0 : List Nat) : Except Nat (List String × List Nat) :=
  ids.foldl (cmdFoldStep m) (.ok (out0, tr0))

/-- Translation of `eval_breakpoint_bytecode` (base.rs:570-667).  Registers are read
first (fatal error aborts; a non-fatal error reports the hit without
evaluating anything).  Condition bytecodes at the PC are evaluated and
OR-combined; an unresolved (empty or all-error) condition defaults to
true.  If the condition is true the command bytecodes are evaluated with
results discarded; a fatal command error propagates.  Returns whether to
report the stop. -/
def evalBreakpointBytecode (m : AgentModel) : Except GdbError EvalOut :=
  match m.readRegs with
  | .fatal e => .error (.TargetError e)
  | .nonFatal _ => .ok ⟨true, [], []⟩
  | .ok pc =>
    let f := condFoldRun m (m.condIds pc)
    let condition := f.1.getD true
    if condition then
      match cmdFoldRun m (m.cmdIds pc) f.2.1 f.2.2 with
      | .error e => .error (.TargetError e)
      | .ok (out, tr) => .ok ⟨condition, out, tr⟩
    else .ok ⟨condition, f.2.1, f.2.2⟩

/-! ## The resume loop (`do_vcont`) -/

/-- The tid bookkeeping done on a breakpoint/watchpoint stop
(base.rs:520-521). -/
def setTids (st : SessionState) (tid : Nat) : SessionState :=
  { st with current_mem_tid := tid, current_resume_tid := .WithID tid }

/-- Outcome of one pass through the `match stop_reason` block: a reply
(with handler status and the session state as left behind), a silent
skip that re-enters the loop, or a fatal error. -/
inductive StepResult
  | reply (h : HandlerStatus) (body : String) (st : SessionState)
  | skip (st : SessionState)
  | fail (e : GdbError)
  deriving DecidableEq, Repr

/-- The `T05 thread:<ptid>;<kind>…;` stop-reply body (base.rs:535-560). -/
def t05Body (tid : Nat) (kindPart : String) : String :=
  "T05" ++ "thread:" ++ writeThreadId ⟨some (.WithID FAKE_PID), .WithID tid⟩ ++ ";"
    ++ kindPart ++ ";"

/-- The shared breakpoint/watchpoint arm of the stop-reason match
(base.rs:517-562): set `current_mem_tid`/`current_resume_tid` to the
stopping tid, then — when a breakpoint agent is present and its bytecode
executor runs inside the stub — evaluate the attached bytecode, skipping
the stop silently when the condition is false; otherwise emit `T05`. -/
def breakArm (st : SessionState) (tid : Nat) (agentPresent isGdbstub : Bool)
    (am : AgentModel) (kindPart : String) : StepResult :=
  let st' := setTids st tid
  if agentPresent && isGdbstub then
    match evalBreakpointBytecode am with
    | .error e => .fail e
    | .ok out =>
      if out.condition then .reply .Handled (t05Body tid kindPart) st'
      else .skip st'
  else .reply .Handled (t05Body tid kindPart) st'

/-- The `match stop_reason` block of `do_vcont` (base.rs:503-563). -/
def doVcontStep (stop : ThreadStopReason) (st : SessionState)
    (agentPresent isGdbstub : Bool) (am : AgentModel) : StepResult :=
  match stop with
  | .DoneStep => .reply .Handled "S05" st
  | .GdbInterrupt => .reply .Handled "S05" st
  | .Signal code => .reply .Handled ("S" ++ hexNum code) st
  | .Halted => .reply (.Disconnect .TargetHalted) "W19" st
  | .SwBreak tid => breakArm st tid agentPresent isGdbstub am "swbreak:"
  | .HwBreak tid => breakArm st tid agentPresent isGdbstub am "hwbreak:"
  | .Watch tid kind addr =>
    let kindPart :=
      (match kind with
       | .Write => "watch:"
       | .Read => "rwatch:"
       | .ReadWrite => "awatch:") ++ hexNum addr
    breakArm st tid agentPresent isGdbstub am kindPart

/-- Lift of a single-thread stop reason (base.rs:671-687). -/
def liftStop : StopReason → ThreadStopReason
  | .DoneStep => .DoneStep
  | .GdbInterrupt => .GdbInterrupt
  | .Halted => .Halted
  | .SwBreak => .SwBreak SINGLE_THREAD_TID
  | .HwBreak => .HwBreak SINGLE_THREAD_TID
  | .Watch kind addr => .Watch SINGLE_THREAD_TID kind addr
  | .Signal sig => .Signal sig

/-- Thread field of one `vCont` action (base.rs:457-468): `Any` is
rejected, `All` and a missing thread-id select all threads. -/
def parseTid : Option ThreadId → Except GdbError TidSelector
  | some th =>
    match th.tid with
    | .Any => .error .PacketUnexpected
    | .All => .ok .All
    | .WithID t => .ok (.WithID t)
  | none => .ok .All

/-- The body of the `filter_map` over `vCont` actions (base.rs:428-471):
a malformed action is a parse error, with-signal kinds are unimplemented,
then the thread field is decoded. -/
def parseOne : Option VContAction → Except GdbError (TidSelector × ResumeAction)
  | none => .error .PacketParse
  | some a =>
    match a.kind with
    | .Step => (parseTid a.thread).map fun t => (t, ResumeAction.Step)
    | .Continue => (parseTid a.thread).map fun t => (t, ResumeAction.Continue)
    | .StepWithSig _ => .error .ResumeWithSignalUnimplemented
    | .ContinueWithSig _ => .error .ResumeWithSignalUnimplemented

/-- Lazy consumption of the action iterator by the single-thread path
(`actions.next()`): elements are pulled until one parses, each failed
parse overwriting the deferred `err`; returns the deferred error and the
first parsed action. -/
def nextParsed : List (Option VContAction) → Option GdbError →
    Option GdbError × Option (TidSelector × ResumeAction)
  | [], e => (e, none)
  | a :: rest, e =>
    match parseOne a with
    | .ok p => (e, some p)
    | .error e2 => nextParsed rest (some e2)

/-- Full consumption of the action iterator, as a multi-thread target
draining `Actions` inside `resume` sees it: the successfully parsed
actions in order, plus the last deferred parse error (the multi-thread
target is outside `src/`; draining the whole iterator is the modelled
behaviour). -/
def drainParsed (l : List (Option VContAction)) :
    Option GdbError × List (TidSelector × ResumeAction) :=
  l.foldl
    (fun (acc : Option GdbError × List (TidSelector × ResumeAction)) a =>
      match parseOne a with
      | .ok p => (acc.1, acc.2 ++ [p])
      | .error e => (some e, acc.2))
    (none, [])

/-- One round of the resume loop from the environment's point of view,
single-thread target: whether any `check_interrupt` peek hit a transport
error during this `resume`, the resume outcome (fatal target error or a
stop reason), and the agent world at this stop. -/
structure STIter where
  connErr : Bool
  result : Except Nat StopReason
  agent : AgentModel

/-- One round of the resume loop, multi-thread target. -/
structure MTIter where
  connErr : Bool
  result : Except Nat ThreadStopReason
  agent : AgentModel

/-- Translation of `do_vcont` (base.rs:419-565) for a single-thread target.  Each loop
iteration re-parses `base` lazily: no parsed action at all is
`PacketUnexpected` (raised before `resume` is called — note that this
check precedes, and therefore masks, the deferred parse error `err`);
then the target resumes (oracle list `iters`, one entry per call), the
deferred parse error and any interrupt-peek transport error are checked,
and the stop reason is translated; a condition-false breakpoint skip
re-enters the loop with the same actions.  `none` means the oracle list
ran out (the loop would keep resuming). -/
def doVcontST (g b : Bool) (base : List (Option VContAction)) :
    List STIter → SessionState →
    Option (Except GdbError (HandlerStatus × String × SessionState))
  | [], _ =>
    match (nextParsed base none).2 with
    | none => some (.error .PacketUnexpected)
    | some _ => none
  | it :: rest, st =>
    match (nextParsed base none).2 with
    | none => some (.error .PacketUnexpected)
    | some _ =>
      match it.result with
      | .error e => some (.error (.TargetError e))
      | .ok s0 =>
        match (nextParsed base none).1 with
        | some e => some (.error e)
        | none =>
          if it.connErr then some (.error .ConnectionRead)
          else
            match doVcontStep (liftStop s0) st g b it.agent with
            | .fail e => some (.error e)
            | .reply h body st' => some (.ok (h, body, st'))
            | .skip st' => doVcontST g b base rest st'

/-- Translation of `do_vcont` for a multi-thread target; the whole action iterator is
handed to `resume` (drained there), then the deferred errors are checked
and the stop reason translated, looping on a silent breakpoint skip. -/
def doVcontMT (g b : Bool) (base : List (Option VContAction)) :
    List MTIter → SessionState →
    Option (Except GdbError (HandlerStatus × String × SessionState))
  | iters, st =>
    match iters with
    | [] => none
    | it :: rest =>
      match it.result with
      | .error e => some (.error (.TargetError e))
      | .ok stop =>
        match (drainParsed base).1 with
        | some e => some (.error e)
        | none =>
          if it.connErr then some (.error .ConnectionRead)
          else
            match doVcontStep stop st g b it.agent with
            | .fail e => some (.error e)
            | .reply h body st' => some (.ok (h, body, st'))
            | .skip st' => doVcontMT g b base rest st'

/-- A `TidSelector` rendered back to a protocol `IdKind` (base.rs:314-317). -/
def tidSelectorToIdKind : TidSelector → IdKind
  | .WithID id => .WithID id
  | .All => .All

/-- Modelled from the spec (§4.5): `Actions::new_continue` (protocol
module, not under `src/`) builds the one-element action list carrying a
continue for the given thread-id. -/
def newContinueActions (t : ThreadId) : List (Option VContAction) :=
  [some ⟨.Continue, some t⟩]

/-- Modelled from the spec (§4.5): `Actions::new_step`, one step action
for the given thread-id. -/
def newStepActions (t : ThreadId) : List (Option VContAction) :=
  [some ⟨.Step, some t⟩]

/-- The action list `Base::c` hands to `do_vcont` (base.rs:306-320). -/
def cActions (st : SessionState) : List (Option VContAction) :=
  newContinueActions ⟨none, tidSelectorToIdKind st.current_resume_tid⟩

/-- The action list `Base::s` hands to `do_vcont` (base.rs:321-335). -/
def sActions (st : SessionState) : List (Option VContAction) :=
  newStepActions ⟨none, tidSelectorToIdKind st.current_resume_tid⟩

/-! ## The interrupt-check callback (`check_gdb_interrupt`) -/

/-- The `check_gdb_interrupt` closure handed to `resume`
(base.rs:475-483): peeking `0x03` (the interrupt byte) returns true;
any other byte, or no byte, returns false; a transport error records a
deferred `ConnectionRead` (surfaced after `resume` returns) and returns
true to break out as soon as possible.  The peek outcome is the
argument; the connection error payload is elided. -/
def checkGdbInterrupt : Except Unit (Option Nat) → Bool × Option GdbError
  | .ok (some b) => if b = 3 then (true, none) else (false, none)
  | .ok none => (false, none)
  | .error _ => (true, some .ConnectionRead)

/-- A healthy connection modelled as the stream of bytes not yet read;
`peek` (`connection/mod.rs:46-47`) yields the next byte without removing
it. -/
def streamPeek (s : List Nat) : Except Unit (Option Nat) × List Nat :=
  (.ok s.head?, s)

/-- The callback run against a healthy connection stream: the peeked
verdict plus the stream as the callback leaves it. -/
def checkInterruptOnStream (s : List Nat) : Bool × List Nat :=
  ((checkGdbInterrupt (streamPeek s).1).1, (streamPeek s).2)

/-! ## Register/memory handlers (multi-thread base ops, with call traces) -/

/-- Registers, as the architecture serialises them: one optional byte
per serialisation slot (`None` prints as `xx`). -/
def serializeRegs (regs : List (Option Nat)) : String :=
  String.join (regs.map fun v =>
    match v with
    | some b => hexByte b
    | none => "xx")

/-- The architecture interface consumed by the handlers (external to the
library): raw register-id decoding to `(typed id, byte width)`,
`gdb_deserialize`, and big-endian pointer decoding. -/
structure ArchModel where
  fromRawId : Nat → Option (Nat × Nat)
  gdbDeserialize : List Nat → Option (List (Option Nat))
  usizeFromBeBytes : List Nat → Option Nat

/-- A multi-thread target's base operations, as outcome oracles. -/
structure MTModel where
  readRegisters : Nat → TgtOutcome (List (Option Nat))
  writeRegisters : List (Option Nat) → Nat → TgtOutcome Unit
  readRegister : Nat → Nat → TgtOutcome (List Nat)
  writeRegister : Nat → List Nat → Nat → TgtOutcome Unit
  readAddrs : Nat → Nat → Nat → TgtOutcome (List Nat)
  writeAddrs : Nat → List Nat → Nat → TgtOutcome Unit

/-- One recorded call into the target; the last field is always the tid
the handler passed. -/
inductive TgtCall
  | readRegs (tid : Nat)
  | writeRegs (tid : Nat)
  | readReg (rid tid : Nat)
  | writeReg (rid : Nat) (val : List Nat) (tid : Nat)
  | readAddrs (addr len tid : Nat)
  | writeAddrs (addr : Nat) (val : List Nat) (tid : Nat)
  deriving DecidableEq, Repr

/-- The tid a recorded call carried. -/
def TgtCall.tid : TgtCall → Nat
  | .readRegs t => t
  | .writeRegs t => t
  | .readReg _ t => t
  | .writeReg _ _ t => t
  | .readAddrs _ _ t => t
  | .writeAddrs _ _ t => t

/-- A handler's outcome: reply (or error) plus the trace of target
calls. -/
structure HRes where
  result : Except GdbError (HandlerStatus × String)
  calls : List TgtCall

/-- Translation of `Base::g` (base.rs:135-157): read all registers of
`current_mem_tid` and serialise them (a `None` byte prints `xx`). -/
def handle_g (mt : MTModel) (st : SessionState) : HRes :=
  { result :=
      match handleErr (mt.readRegisters st.current_mem_tid) with
      | .error e => .error e
      | .ok regs => .ok (.Handled, serializeRegs regs)
  , calls := [.readRegs st.current_mem_tid] }

/-- Translation of `Base::G` (base.rs:158-170): deserialise the packet bytes (failure
is `TargetMismatch`), then write all registers of `current_mem_tid`. -/
def handle_G (arch : ArchModel) (mt : MTModel) (st : SessionState)
    (vals : List Nat) : HRes :=
  match arch.gdbDeserialize vals with
  | none => { result := .error .TargetMismatch, calls := [] }
  | some regs =>
    { result :=
        match handleErr (mt.writeRegisters regs st.current_mem_tid) with
        | .error e => .error e
        | .ok _ => .ok (.NeedsOK, "")
    , calls := [.writeRegs st.current_mem_tid] }

/-- The register read buffer: a 32-byte zeroed scratch sliced to the
register width, as the target leaves it. -/
def fillBuf (size : Nat) (bs : List Nat) : List Nat :=
  bs.take size ++ List.replicate (size - bs.length) 0

/-- Translation of `Base::p` (base.rs:243-262): an unrecognised raw register id
produces an empty (`Handled`) reply; otherwise the register of
`current_mem_tid` is read and hex-dumped at its decoded width. -/
def handle_p (arch : ArchModel) (mt : MTModel) (st : SessionState)
    (raw : Nat) : HRes :=
  match arch.fromRawId raw with
  | none => { result := .ok (.Handled, ""), calls := [] }
  | some (rid, size) =>
    { result :=
        match handleErr (mt.readRegister rid st.current_mem_tid) with
        | .error e => .error e
        | .ok bytes => .ok (.Handled, hexBuf (fillBuf size bytes))
    , calls := [.readReg rid st.current_mem_tid] }

/-- Translation of `Base::P` (base.rs:263-276): an unrecognised raw register id is
`NonFatalError(22)` (reply `E16`); otherwise the register of
`current_mem_tid` is written and the reply is `OK`. -/
def handle_P (arch : ArchModel) (mt : MTModel) (st : SessionState)
    (raw : Nat) (val : List Nat) : HRes :=
  match arch.fromRawId raw with
  | none => { result := .error (.NonFatalError 22), calls := [] }
  | some (rid, _) =>
    { result :=
        match handleErr (mt.writeRegister rid val st.current_mem_tid) with
        | .error e => .error e
        | .ok _ => .ok (.NeedsOK, "")
    , calls := [.writeReg rid val st.current_mem_tid] }

/-- The chunked read loop of `Base::m` (base.rs:176-197): while bytes
remain, read `min(remaining, buffer capacity)` bytes at `addr + i` for
`current_mem_tid` and append their hex.  Fuel bounds the iteration
count (the remaining count strictly decreases whenever the buffer
capacity is positive); `none` models the source's non-termination when
the scratch buffer is empty. -/
def mLoop (mt : MTModel) (tid addr bufcap : Nat) :
    Nat → Nat → Nat → String → List TgtCall → Option HRes
  | 0, n, _, out, calls =>
    if n = 0 then some { result := .ok (.Handled, out), calls := calls } else none
  | fuel + 1, n, i, out, calls =>
    if n = 0 then some { result := .ok (.Handled, out), calls := calls }
    else
      let chunk := min n bufcap
      let calls := calls ++ [.readAddrs (addr + i) chunk tid]
      match handleErr (mt.readAddrs (addr + i) chunk tid) with
      | .error e => some { result := .error e, calls := calls }
      | .ok data =>
        mLoop mt tid addr bufcap fuel (n - chunk) (i + chunk) (out ++ hexBuf data) calls

/-- Translation of `Base::m` (base.rs:171-199): decode the big-endian address
(failure is `TargetMismatch`), then run the chunked read loop. -/
def handle_m (arch : ArchModel) (mt : MTModel) (st : SessionState)
    (addrBytes : List Nat) (len bufcap : Nat) : Option HRes :=
  match arch.usizeFromBeBytes addrBytes with
  | none => some { result := .error .TargetMismatch, calls := [] }
  | some addr => mLoop mt st.current_mem_tid addr bufcap len len 0 "" []

/-- Translation of `Base::M` (base.rs:200-213): decode the big-endian address, then
write the packet bytes at it for `current_mem_tid`; reply `OK`. -/
def handle_M (arch : ArchModel) (mt : MTModel) (st : SessionState)
    (addrBytes val : List Nat) : HRes :=
  match arch.usizeFromBeBytes addrBytes with
  | none => { result := .error .TargetMismatch, calls := [] }
  | some addr =>
    { result :=
        match handleErr (mt.writeAddrs addr val st.current_mem_tid) with
        | .error e => .error e
        | .ok _ => .ok (.NeedsOK, "")
    , calls := [.writeAddrs addr val st.current_mem_tid] }

/-! ## `H`, kill and `qXfer:features:read` handlers -/

/-- The two `H` operations (`protocol::commands::_h_upcase::Op`): `Hg`
parses to `Other`, `Hc` to `StepContinue`. -/
inductive HOp
  | Other
  | StepContinue
  deriving DecidableEq, Repr

/-- Translation of `Base::H` (base.rs:338-355): `Hg` with `Any` keeps the old memory
tid, `All` is `PacketUnexpected`, `WithID` selects; `Hc` with `Any`
keeps the old resume selector, `All`/`WithID` select; every non-error
case replies `OK` (`NeedsOK`). -/
def handle_H (st : SessionState) (op : HOp) (thread : ThreadId) :
    Except GdbError (HandlerStatus × SessionState) :=
  match op with
  | .Other =>
    match thread.tid with
    | .Any => .ok (.NeedsOK, st)
    | .All => .error .PacketUnexpected
    | .WithID tid => .ok (.NeedsOK, { st with current_mem_tid := tid })
  | .StepContinue =>
    match thread.tid with
    | .Any => .ok (.NeedsOK, st)
    | .All => .ok (.NeedsOK, { st with current_resume_tid := .All })
    | .WithID tid => .ok (.NeedsOK, { st with current_resume_tid := .WithID tid })

/-- The two kill-flavoured packets. -/
inductive KillCmd
  | k
  | vKill (pid : Nat)
  deriving DecidableEq, Repr

/-- Translation of `Base::k | Base::vKill` (base.rs:214-237).  Without extended mode:
disconnect with reason `Kill`, nothing written.  With extended mode
(modelled by its `kill` oracle): delegate `Some(pid)` for `vKill`,
`None` for `k`; a true return writes `OK` and disconnects with `Kill`,
a false return is `NeedsOK` (the session stays alive).  The second
component records the pids delegated to `target.kill`. -/
def handle_kill (ext : Option (Option Nat → TgtOutcome Bool)) (cmd : KillCmd) :
    Except GdbError (HandlerStatus × String) × List (Option Nat) :=
  match ext with
  | none => (.ok (.Disconnect .Kill, ""), [])
  | some kill =>
    let pid : Option Nat :=
      match cmd with
      | .vKill p => some p
      | .k => none
    match handleErr (kill pid) with
    | .error e => (.error e, [pid])
    | .ok true => (.ok (.Disconnect .Kill, "OK"), [pid])
    | .ok false => (.ok (.NeedsOK, ""), [pid])

/-- ASCII whitespace, as `str::trim` strips it (Unicode whitespace
beyond ASCII does not occur in target-description XML). -/
def isWsByte (b : Nat) : Bool :=
  b == 9 || b == 10 || b == 11 || b == 12 || b == 13 || b == 32

/-- The `xml.trim()` call, on the byte level. -/
def trimBytes (bs : List Nat) : List Nat :=
  ((bs.dropWhile isWsByte).reverse.dropWhile isWsByte).reverse

/-- Translation of `Base::qXferFeaturesRead` (base.rs:80-103): with no
target-description XML the packet is `PacketUnexpected`; otherwise the
trimmed XML is paginated — an offset at or past the end is a bare `l`,
a window reaching the end is `l` plus the binary-encoded tail from
`offset`, and otherwise `m` plus the binary-encoded window
`[offset, offset+len)`. -/
def handle_qXferFeaturesRead (xml : Option (List Nat)) (offset len : Nat) :
    Except GdbError String :=
  match xml with
  | none => .error .PacketUnexpected
  | some raw =>
    let x := trimBytes raw
    if offset ≥ x.length then .ok "l"
    else if offset + len ≥ x.length then
      .ok ("l" ++ bytesToStr (binEnc (x.drop offset)))
    else
      .ok ("m" ++ bytesToStr (binEnc ((x.drop offset).take len)))

end Gdbstub

namespace Gdbstub

/-- C1: for every target, the `qSupported` reply is `PacketSize=<len>`
followed by exactly the gated feature strings (each prefixed with `;`) in
source order; the three unconditional features are always advertised, and
each optional feature is advertised iff its capability gate holds
(`QDisableRandomization` iff extended mode with configure-ASLR, the three
`QEnvironment…` strings iff extended mode with configure-env,
`QStartupWithShell` iff configure-startup-shell, `QSetWorkingDir` iff
configure-working-dir, `QAgent` iff the agent is implemented, `swbreak`
iff software breakpoints, `hwbreak` iff hardware breakpoints or
watchpoints, `BreakpointCommands`/`ConditionalBreakpoints` iff a
breakpoint agent, `qXfer:features:read` iff target-description XML). -/
theorem qSupported_capability_gating (t : TargetCaps) (len : Nat) :
    handle_qSupported t len
      = featuresAppend ("PacketSize=" ++ hexNum len) (qSupportedFeatures t)
    ∧ (Feature.vContSupported ∈ qSupportedFeatures t
        ∧ Feature.multiprocess ∈ qSupportedFeatures t
        ∧ Feature.QStartNoAckMode ∈ qSupportedFeatures t)
    ∧ (Feature.QDisableRandomization ∈ qSupportedFeatures t
        ↔ extGate t (fun o => o.configure_aslr) = true)
    ∧ ((Feature.QEnvironmentHexEncoded ∈ qSupportedFeatures t
          ∧ Feature.QEnvironmentUnset ∈ qSupportedFeatures t
          ∧ Feature.QEnvironmentReset ∈ qSupportedFeatures t)
        ↔ extGate t (fun o => o.configure_env) = true)
    ∧ (Feature.QStartupWithShell ∈ qSupportedFeatures t
        ↔ extGate t (fun o => o.configure_startup_shell) = true)
    ∧ (Feature.QSetWorkingDir ∈ qSupportedFeatures t
        ↔ extGate t (fun o => o.configure_working_dir) = true)
    ∧ (Feature.QAgent ∈ qSupportedFeatures t ↔ t.agent = true)
    ∧ (Feature.swbreak ∈ qSupportedFeatures t
        ↔ bpGate t (fun o => o.sw_breakpoint) = true)
    ∧ (Feature.hwbreak ∈ qSupportedFeatures t
        ↔ bpGate t (fun o => o.hw_breakpoint || o.hw_watchpoint) = true)
    ∧ ((Feature.BreakpointCommands ∈ qSupportedFeatures t
          ∧ Feature.ConditionalBreakpoints ∈ qSupportedFeatures t)
        ↔ bpGate t (fun o => o.breakpoint_agent) = true)
    ∧ (Feature.qXferFeaturesRead ∈ qSupportedFeatures t ↔ t.xml.isSome = true) := by
  have hmem : ∀ f : Feature, (f ∈ qSupportedFeatures t ↔ featureGate t f = true) := by
    intro f
    rw [qSupportedFeatures, List.mem_filter]
    have hall : f ∈ allFeatures := by cases f <;> decide
    simp [hall]
  refine ⟨?_, ?_⟩
  · obtain ⟨ext, agent, bp, xml⟩ := t
    rcases ext with _ | ⟨a, e, sh, wd⟩ <;> rcases bp with _ | ⟨sw, hw, wa, ba⟩ <;>
      rcases xml with _ | x <;> cases agent <;>
      first
      | rfl
      | (cases a <;> cases e <;> cases sh <;> cases wd <;>
          first
          | rfl
          | (cases sw <;> cases hw <;> cases wa <;> cases ba <;> rfl))
      | (cases sw <;> cases hw <;> cases wa <;> cases ba <;> rfl)
  · refine ⟨⟨(hmem _).mpr rfl, (hmem _).mpr rfl, (hmem _).mpr rfl⟩, ?_, ?_, ?_, ?_, ?_, ?_, ?_, ?_, ?_⟩
    · exact hmem .QDisableRandomization
    · constructor
      · intro h
        exact (hmem .QEnvironmentHexEncoded).mp h.1
      · intro h
        exact ⟨(hmem _).mpr h, (hmem _).mpr h, (hmem _).mpr h⟩
    · exact hmem .QStartupWithShell
    · exact hmem .QSetWorkingDir
    · exact hmem .QAgent
    · exact hmem .swbreak
    · exact hmem .hwbreak
    · constructor
      · intro h
        exact (hmem .BreakpointCommands).mp h.1
      · intro h
        exact ⟨(hmem _).mpr h, (hmem _).mpr h⟩
    · exact hmem .qXferFeaturesRead

/-- C2: the stop-reason → reply translation of `do_vcont` (here for a
target without a breakpoint agent, whose stops are always reported):
`DoneStep` and `GdbInterrupt` reply `S05`; `Signal code` replies `S`
followed by the lowercase hex of `code`; `Halted` replies `W19` and
disconnects with reason `TargetHalted`; `SwBreak`/`HwBreak`/`Watch`
reply `T05thread:<ptid>;` followed by `swbreak:`/`hwbreak:` or, for
`Watch` of kind Write/Read/ReadWrite, `watch:`/`rwatch:`/`awatch:` with
the hex address appended only in the watch cases, all terminated by
`;`. -/
theorem vcont_stop_reason_replies (st : SessionState) (am : AgentModel)
    (b : Bool) (code t addr : Nat) :
    doVcontStep .DoneStep st false b am = .reply .Handled "S05" st
    ∧ doVcontStep .GdbInterrupt st false b am = .reply .Handled "S05" st
    ∧ doVcontStep (.Signal code) st false b am
        = .reply .Handled ("S" ++ hexNum code) st
    ∧ doVcontStep .Halted st false b am
        = .reply (.Disconnect .TargetHalted) "W19" st
    ∧ doVcontStep (.SwBreak t) st false b am
        = .reply .Handled
            ("T05" ++ "thread:" ++ writeThreadId ⟨some (.WithID FAKE_PID), .WithID t⟩
              ++ ";" ++ "swbreak:" ++ ";")
            (setTids st t)
    ∧ doVcontStep (.HwBreak t) st false b am
        = .reply .Handled
            ("T05" ++ "thread:" ++ writeThreadId ⟨some (.WithID FAKE_PID), .WithID t⟩
              ++ ";" ++ "hwbreak:" ++ ";")
            (setTids st t)
    ∧ doVcontStep (.Watch t .Write addr) st false b am
        = .reply .Handled
            ("T05" ++ "thread:" ++ writeThreadId ⟨some (.WithID FAKE_PID), .WithID t⟩
              ++ ";" ++ ("watch:" ++ hexNum addr) ++ ";")
            (setTids st t)
    ∧ doVcontStep (.Watch t .Read addr) st false b am
        = .reply .Handled
            ("T05" ++ "thread:" ++ writeThreadId ⟨some (.WithID FAKE_PID), .WithID t⟩
              ++ ";" ++ ("rwatch:" ++ hexNum addr) ++ ";")
            (setTids st t)
    ∧ doVcontStep (.Watch t .ReadWrite addr) st false b am
        = .reply .Handled
            ("T05" ++ "thread:" ++ writeThreadId ⟨some (.WithID FAKE_PID), .WithID t⟩
              ++ ";" ++ ("awatch:" ++ hexNum addr) ++ ";")
            (setTids st t) :=
  ⟨rfl, rfl, rfl, rfl, rfl, rfl, rfl, rfl, rfl⟩

/-- Whether one bytecode id evaluates successfully to a nonzero value. -/
def bcNonzero (m : AgentModel) (id : Nat) : Bool :=
  match m.evalBc id with
  | .ok v => decide (v ≠ 0)
  | _ => false

theorem condFold_trace (m : AgentModel) (ids : List Nat) :
    ∀ acc, ((ids.foldl (condFoldStep m) acc).2.2) = acc.2.2 ++ ids := by
  induction ids with
  | nil => intro acc; simp
  | cons id rest ih =>
    intro acc
    rw [List.foldl_cons, ih]
    have hstep : (condFoldStep m acc id).2.2 = acc.2.2 ++ [id] := by
      unfold condFoldStep
      cases m.evalBc id <;> rfl
    rw [hstep, List.append_assoc]
    rfl

theorem condFold_keeps_false (m : AgentModel) (ids : List Nat)
    (hz : ∀ id ∈ ids, m.evalBc id = .ok 0) :
    ∀ acc : Option Bool × List String × List Nat, acc.1 = some false →
      ((ids.foldl (condFoldStep m) acc).1) = some false := by
  induction ids with
  | nil => intro acc h; simpa using h
  | cons id rest ih =>
    intro acc h
    rw [List.foldl_cons]
    refine ih (fun i hi => hz i (List.mem_cons_of_mem _ hi)) _ ?_
    have hid : m.evalBc id = .ok 0 := hz id (List.mem_cons_self _ _)
    simp [condFoldStep, hid, h]

theorem condFoldRun_all_zero (m : AgentModel) (ids : List Nat)
    (hne : ids ≠ []) (hz : ∀ id ∈ ids, m.evalBc id = .ok 0) :
    (condFoldRun m ids).1 = some false := by
  cases ids with
  | nil => exact absurd rfl hne
  | cons id rest =>
    rw [condFoldRun, List.foldl_cons]
    refine condFold_keeps_false m rest (fun i hi => hz i (List.mem_cons_of_mem _ hi)) _ ?_
    have hid : m.evalBc id = .ok 0 := hz id (List.mem_cons_self _ _)
    simp [condFoldStep, hid]

theorem condFold_or (m : AgentModel) (ids : List Nat)
    (hok : ∀ id ∈ ids, ∃ v, m.evalBc id = .ok v) :
    ∀ c0 : Bool, ∀ acc : Option Bool × List String × List Nat, acc.1 = some c0 →
      ((ids.foldl (condFoldStep m) acc).1) = some (ids.any (bcNonzero m) || c0) := by
  induction ids with
  | nil => intro c0 acc h; simpa using h
  | cons id rest ih =>
    intro c0 acc h
    obtain ⟨v, hv⟩ := hok id (List.mem_cons_self _ _)
    rw [List.foldl_cons]
    have hstep : (condFoldStep m acc id).1 = some (bcNonzero m id || c0) := by
      simp [condFoldStep, hv, h, bcNonzero]
    rw [ih (fun i hi => hok i (List.mem_cons_of_mem _ hi)) _ _ hstep]
    simp [Bool.or_assoc, Bool.or_comm, Bool.or_left_comm]

theorem cmdFoldRun_no_fatal (m : AgentModel) (ids : List Nat)
    (hnf : ∀ id ∈ ids, ∀ e, m.evalBc id ≠ .fatal e) :
    ∀ out0 tr0, ∃ out1, cmdFoldRun m ids out0 tr0 = .ok (out1, tr0 ++ ids) := by
  induction ids with
  | nil => intro out0 tr0; exact ⟨out0, by simp [cmdFoldRun]⟩
  | cons id rest ih =>
    intro out0 tr0
    have hrest : ∀ i ∈ rest, ∀ e, m.evalBc i ≠ .fatal e :=
      fun i hi => hnf i (List.mem_cons_of_mem _ hi)
    rw [cmdFoldRun, List.foldl_cons]
    match hbc : m.evalBc id with
    | .ok v =>
      obtain ⟨out1, h1⟩ := ih hrest out0 (tr0 ++ [id])
      refine ⟨out1, ?_⟩
      rw [show cmdFoldStep m (.ok (out0, tr0)) id = .ok (out0, tr0 ++ [id]) by
            simp [cmdFoldStep, hbc]]
      rw [cmdFoldRun] at h1
      rw [h1, List.append_assoc]
      rfl
    | .fatal e => exact absurd hbc (hnf id (List.mem_cons_self _ _) e)
    | .nonFatal c =>
      obtain ⟨out1, h1⟩ := ih hrest (out0 ++ [consoleCmdErr]) (tr0 ++ [id])
      refine ⟨out1, ?_⟩
      rw [show cmdFoldStep m (.ok (out0, tr0)) id
            = .ok (out0 ++ [consoleCmdErr], tr0 ++ [id]) by simp [cmdFoldStep, hbc]]
      rw [cmdFoldRun] at h1
      rw [h1, List.append_assoc]
      rfl

/-- C3: with a breakpoint agent whose bytecode executor runs inside the
stub, on a `SwBreak`/`HwBreak`/`Watch` stop whose register read yields
the stopped PC: (i) when every condition bytecode at that PC evaluates
successfully, the combined condition is the logical OR of their
non-zero-ness (true when no conditions are attached); (ii) when at least
one condition is attached and every one evaluates to zero, no reply is
produced for that stop and the resume loop re-enters with the same
actions; (iii) when the combined condition is true and no command
bytecode errors fatally, the command bytecodes at the PC are all passed
to `evaluate` after the conditions (their values discarded), and only
then is the `T05` reply emitted. -/
theorem conditional_breakpoint_gating
    (base : List (Option VContAction)) (it : MTIter) (rest : List MTIter)
    (st : SessionState) (t pc : Nat) (stop : ThreadStopReason)
    (hstop : stop = .SwBreak t ∨ stop = .HwBreak t ∨ ∃ k a, stop = .Watch t k a)
    (hres : it.result = .ok stop) (hconn : it.connErr = false)
    (hdrain : (drainParsed base).1 = none)
    (hregs : it.agent.readRegs = .ok pc) :
    ((∀ id ∈ it.agent.condIds pc, ∃ v, it.agent.evalBc id = .ok v) →
      (condCombined it.agent pc = true ↔
        it.agent.condIds pc = []
          ∨ ∃ id ∈ it.agent.condIds pc, ∃ v, it.agent.evalBc id = .ok v ∧ v ≠ 0))
    ∧ ((it.agent.condIds pc ≠ [] ∧ ∀ id ∈ it.agent.condIds pc, it.agent.evalBc id = .ok 0) →
        doVcontMT true true base (it :: rest) st
          = doVcontMT true true base rest (setTids st t))
    ∧ (condCombined it.agent pc = true →
       (∀ id ∈ it.agent.cmdIds pc, ∀ e, it.agent.evalBc id ≠ .fatal e) →
        (∃ out : EvalOut, evalBreakpointBytecode it.agent = .ok out
            ∧ out.condition = true
            ∧ out.evaluated = it.agent.condIds pc ++ it.agent.cmdIds pc)
        ∧ ∃ kindPart, doVcontMT true true base (it :: rest) st
            = some (.ok (.Handled, t05Body t kindPart, setTids st t))) := by
  refine ⟨?_, ?_, ?_⟩
  · intro hok
    rw [condCombined]
    cases hids : it.agent.condIds pc with
    | nil => simp [condFoldRun]
    | cons id restIds =>
      rw [hids] at hok
      obtain ⟨v, hv⟩ := hok id (List.mem_cons_self _ _)
      rw [condFoldRun, List.foldl_cons]
      have hstep : (condFoldStep it.agent (none, [], []) id).1
          = some (bcNonzero it.agent id || false) := by
        simp [condFoldStep, hv, bcNonzero]
      rw [condFold_or it.agent restIds
            (fun i hi => hok i (List.mem_cons_of_mem _ hi)) _ _ hstep]
      constructor
      · intro h
        right
        have hany : (id :: restIds).any (bcNonzero it.agent) = true := by
          have := h
          simp only [Option.getD_some] at this
          simp only [List.any_cons]
          simp only [Bool.or_false] at this
          rcases Bool.or_eq_true_iff.mp this with h1 | h2
          · exact Bool.or_eq_true_iff.mpr (Or.inr h1)
          · exact Bool.or_eq_true_iff.mpr (Or.inl h2)
        obtain ⟨i, hi, hnz⟩ := List.any_eq_true.mp hany
        obtain ⟨w, hw⟩ := hok i hi
        refine ⟨i, hi, w, hw, ?_⟩
        rw [bcNonzero, hw] at hnz
        simpa using hnz
      · intro h
        rcases h with h | ⟨i, hi, w, hw, hwnz⟩
        · exact absurd h (List.cons_ne_nil id restIds)
        · have hany : (restIds.any (bcNonzero it.agent) || bcNonzero it.agent id) = true := by
            have hbi : bcNonzero it.agent i = true := by
              rw [bcNonzero, hw]; simpa using hwnz
            rcases List.mem_cons.mp hi with h1 | h2
            · subst h1; simp [hbi]
            · have : restIds.any (bcNonzero it.agent) = true :=
                List.any_eq_true.mpr ⟨i, h2, hbi⟩
              simp [this]
          simp only [Option.getD_some, Bool.or_false]
          exact hany
  · rintro ⟨hne, hz⟩
    have hcondfold : (condFoldRun it.agent (it.agent.condIds pc)).1 = some false :=
      condFoldRun_all_zero _ _ hne hz
    have heval : evalBreakpointBytecode it.agent
        = .ok ⟨false, (condFoldRun it.agent (it.agent.condIds pc)).2.1,
                (condFoldRun it.agent (it.agent.condIds pc)).2.2⟩ := by
      rw [evalBreakpointBytecode, hregs]
      simp [hcondfold]
    simp only [doVcontMT, hres, hconn, hdrain]
    rcases hstop with h | h | ⟨k, a, h⟩ <;> subst h <;>
      simp [doVcontStep, breakArm, heval]
  · intro hcond hnf
    have hcmd := cmdFoldRun_no_fatal it.agent (it.agent.cmdIds pc) hnf
      (condFoldRun it.agent (it.agent.condIds pc)).2.1
      (condFoldRun it.agent (it.agent.condIds pc)).2.2
    obtain ⟨out1, h1⟩ := hcmd
    have htr : (condFoldRun it.agent (it.agent.condIds pc)).2.2 = it.agent.condIds pc := by
      have := condFold_trace it.agent (it.agent.condIds pc) (none, [], [])
      simpa [condFoldRun] using this
    have heval : evalBreakpointBytecode it.agent
        = .ok ⟨true, out1, it.agent.condIds pc ++ it.agent.cmdIds pc⟩ := by
      rw [evalBreakpointBytecode, hregs]
      rw [condCombined] at hcond
      simp only [hcond, if_true]
      rw [h1, htr]
    refine ⟨⟨⟨true, out1, it.agent.condIds pc ++ it.agent.cmdIds pc⟩, heval, rfl, rfl⟩, ?_⟩
    simp only [doVcontMT, hres, hconn, hdrain]
    rcases hstop with h | h | ⟨k, a, h⟩ <;> subst h
    · exact ⟨"swbreak:", by simp [doVcontStep, breakArm, heval]⟩
    · exact ⟨"hwbreak:", by simp [doVcontStep, breakArm, heval]⟩
    · refine ⟨(match k with
          | .Write => "watch:"
          | .Read => "rwatch:"
          | .ReadWrite => "awatch:") ++ hexNum a, ?_⟩
      cases k <;> simp [doVcontStep, breakArm, heval]

theorem breakArm_state (st0 : SessionState) (tid : Nat) (g b : Bool)
    (am : AgentModel) (kp : String) :
    (∀ h body st', breakArm st0 tid g b am kp = .reply h body st' → st' = setTids st0 tid)
    ∧ (∀ st', breakArm st0 tid g b am kp = .skip st' → st' = setTids st0 tid) := by
  cases hgb : g && b with
  | false =>
    constructor
    · intro h body st' heq
      simp only [breakArm, hgb, Bool.false_eq_true, if_false] at heq
      exact (StepResult.reply.injEq _ _ _ _ _ _).mp heq |>.2.2.symm
    · intro st' heq
      simp only [breakArm, hgb, Bool.false_eq_true, if_false] at heq
      exact absurd heq (by simp)
  | true =>
    match heval : evalBreakpointBytecode am with
    | .error e =>
      constructor
      · intro h body st' heq
        simp only [breakArm, hgb, if_true, heval] at heq
        exact StepResult.noConfusion heq
      · intro st' heq
        simp only [breakArm, hgb, if_true, heval] at heq
        exact StepResult.noConfusion heq
    | .ok out =>
      cases hc : out.condition with
      | true =>
        constructor
        · intro h body st' heq
          simp only [breakArm, hgb, if_true, heval, hc] at heq
          exact (StepResult.reply.injEq _ _ _ _ _ _).mp heq |>.2.2.symm
        · intro st' heq
          simp only [breakArm, hgb, if_true, heval, hc] at heq
          exact StepResult.noConfusion heq
      | false =>
        constructor
        · intro h body st' heq
          simp only [breakArm, hgb, if_true, heval, hc, Bool.false_eq_true,
            if_false] at heq
          exact StepResult.noConfusion heq
        · intro st' heq
          simp only [breakArm, hgb, if_true, heval, hc, Bool.false_eq_true,
            if_false] at heq
          exact (StepResult.skip.injEq _ _).mp heq |>.symm

theorem mLoop_calls (mt : MTModel) (tid addr cap : Nat) :
    ∀ fuel n i out calls, (∀ c ∈ calls, TgtCall.tid c = tid) →
      ∀ r, mLoop mt tid addr cap fuel n i out calls = some r →
        ∀ c ∈ r.calls, TgtCall.tid c = tid := by
  intro fuel
  induction fuel with
  | zero =>
    intro n i out calls hc r hr
    by_cases hn : n = 0
    · simp only [mLoop, hn, if_true, Option.some.injEq] at hr
      subst hr
      exact hc
    · simp [mLoop, hn] at hr
  | succ fuel ih =>
    intro n i out calls hc r hr
    by_cases hn : n = 0
    · simp only [mLoop, hn, if_true, Option.some.injEq] at hr
      subst hr
      exact hc
    · have hc' : ∀ c ∈ calls ++ [TgtCall.readAddrs (addr + i) (min n cap) tid],
          TgtCall.tid c = tid := by
        intro c hcm
        rcases List.mem_append.mp hcm with hcm | hcm
        · exact hc c hcm
        · rcases List.mem_singleton.mp hcm with rfl
          rfl
      simp only [mLoop, hn, if_false] at hr
      match hread : handleErr (mt.readAddrs (addr + i) (min n cap) tid) with
      | .error e =>
        rw [hread] at hr
        simp only [Option.some.injEq] at hr
        subst hr
        exact hc'
      | .ok data =>
        rw [hread] at hr
        exact ih _ _ _ _ hc' r hr

/-- C4: a breakpoint/watchpoint stop on thread `t` leaves
`current_mem_tid = t` and `current_resume_tid = WithID t` behind in
both the reply and the silent-skip outcome (i.e. the assignment happens
before the reply is emitted); and in such a state every
`g`/`G`/`m`/`M`/`p`/`P` handler passes tid `t` on every call into the
target, while `c` and `s` build their one-action lists (and parse them)
for thread `t`. -/
theorem stop_sets_current_tids (t : Nat) (st : SessionState)
    (h1 : st.current_mem_tid = t) (h2 : st.current_resume_tid = .WithID t)
    (arch : ArchModel) (mt : MTModel) :
    (∀ st0 : SessionState, ∀ g b : Bool, ∀ am : AgentModel,
      ∀ stop : ThreadStopReason,
       (stop = .SwBreak t ∨ stop = .HwBreak t ∨ ∃ k a, stop = .Watch t k a) →
       (∀ hs body st', doVcontStep stop st0 g b am = .reply hs body st' →
          st' = setTids st0 t)
       ∧ (∀ st', doVcontStep stop st0 g b am = .skip st' → st' = setTids st0 t))
    ∧ (∀ st0 : SessionState, (setTids st0 t).current_mem_tid = t
        ∧ (setTids st0 t).current_resume_tid = .WithID t)
    ∧ (∀ c ∈ (handle_g mt st).calls, TgtCall.tid c = t)
    ∧ (∀ vals, ∀ c ∈ (handle_G arch mt st vals).calls, TgtCall.tid c = t)
    ∧ (∀ raw, ∀ c ∈ (handle_p arch mt st raw).calls, TgtCall.tid c = t)
    ∧ (∀ raw val, ∀ c ∈ (handle_P arch mt st raw val).calls, TgtCall.tid c = t)
    ∧ (∀ ab val, ∀ c ∈ (handle_M arch mt st ab val).calls, TgtCall.tid c = t)
    ∧ (∀ ab len cap r, handle_m arch mt st ab len cap = some r →
        ∀ c ∈ r.calls, TgtCall.tid c = t)
    ∧ cActions st = [some ⟨.Continue, some ⟨none, .WithID t⟩⟩]
    ∧ sActions st = [some ⟨.Step, some ⟨none, .WithID t⟩⟩]
    ∧ nextParsed (cActions st) none = (none, some (.WithID t, .Continue))
    ∧ drainParsed (cActions st) = (none, [(.WithID t, .Continue)])
    ∧ nextParsed (sActions st) none = (none, some (.WithID t, .Step))
    ∧ drainParsed (sActions st) = (none, [(.WithID t, .Step)]) := by
  refine ⟨?_, ?_, ?_, ?_, ?_, ?_, ?_, ?_, ?_, ?_, ?_, ?_, ?_, ?_⟩
  · intro st0 g b am stop hstop
    rcases hstop with h | h | ⟨k, a, h⟩ <;> subst h
    · exact breakArm_state st0 t g b am "swbreak:"
    · exact breakArm_state st0 t g b am "hwbreak:"
    · cases k <;> exact breakArm_state st0 t g b am _
  · intro st0
    exact ⟨rfl, rfl⟩
  · intro c hc
    simp only [handle_g, List.mem_singleton] at hc
    subst hc
    simpa [TgtCall.tid] using h1
  · intro vals c hc
    rcases hd : arch.gdbDeserialize vals with _ | regs
    · simp [handle_G, hd] at hc
    · simp only [handle_G, hd, List.mem_singleton] at hc
      subst hc
      simpa [TgtCall.tid] using h1
  · intro raw c hc
    rcases hd : arch.fromRawId raw with _ | ⟨rid, size⟩
    · simp [handle_p, hd] at hc
    · simp only [handle_p, hd, List.mem_singleton] at hc
      subst hc
      simpa [TgtCall.tid] using h1
  · intro raw val c hc
    rcases hd : arch.fromRawId raw with _ | ⟨rid, size⟩
    · simp [handle_P, hd] at hc
    · simp only [handle_P, hd, List.mem_singleton] at hc
      subst hc
      simpa [TgtCall.tid] using h1
  · intro ab val c hc
    rcases hd : arch.usizeFromBeBytes ab with _ | addr
    · simp [handle_M, hd] at hc
    · simp only [handle_M, hd, List.mem_singleton] at hc
      subst hc
      simpa [TgtCall.tid] using h1
  · intro ab len cap r hr
    rcases hd : arch.usizeFromBeBytes ab with _ | addr
    · simp only [handle_m, hd, Option.some.injEq] at hr
      subst hr
      simp
    · simp only [handle_m, hd] at hr
      subst h1
      exact mLoop_calls mt st.current_mem_tid addr cap len len 0 "" []
        (by simp) r hr
  · simp [cActions, newContinueActions, h2, tidSelectorToIdKind]
  · simp [sActions, newStepActions, h2, tidSelectorToIdKind]
  · simp [cActions, newContinueActions, h2, tidSelectorToIdKind, nextParsed,
      parseOne, parseTid, Except.map]
  · simp [cActions, newContinueActions, h2, tidSelectorToIdKind, drainParsed,
      parseOne, parseTid, Except.map]
  · simp [sActions, newStepActions, h2, tidSelectorToIdKind, nextParsed,
      parseOne, parseTid, Except.map]
  · simp [sActions, newStepActions, h2, tidSelectorToIdKind, drainParsed,
      parseOne, parseTid, Except.map]

/-- A concrete agent world: the stop PC is 0x40, two condition
bytecodes (ids 1 and 2) evaluating to zero and one command bytecode
(id 5) are attached there. -/
def am0 : AgentModel :=
  { readRegs := .ok 0x40
  , condIds := fun pc => if pc = 0x40 then [1, 2] else []
  , cmdIds := fun pc => if pc = 0x40 then [5] else []
  , evalBc := fun id => if id = 1 ∨ id = 2 then .ok 0 else .ok 7 }

theorem conditional_breakpoint_gating_witness :
    (am0.condIds 0x40 ≠ [] ∧ ∀ id ∈ am0.condIds 0x40, am0.evalBc id = .ok 0)
    ∧ doVcontMT true true [some ⟨.Continue, none⟩]
        [⟨false, .ok (.SwBreak 3), am0⟩] ⟨1, .All, false⟩
      = doVcontMT true true [some ⟨.Continue, none⟩] [] (setTids ⟨1, .All, false⟩ 3) :=
  ⟨⟨by decide, by decide⟩,
   (conditional_breakpoint_gating [some ⟨.Continue, none⟩]
      ⟨false, .ok (.SwBreak 3), am0⟩ [] ⟨1, .All, false⟩ 3 0x40 (.SwBreak 3)
      (Or.inl rfl) rfl rfl (by decide) rfl).2.1 ⟨by decide, by decide⟩⟩

/-- An architecture that recognises every raw register id at width 4,
deserialises anything, and decodes every address to 0. -/
def arch1 : ArchModel :=
  { fromRawId := fun r => some (r, 4)
  , gdbDeserialize := fun _ => some []
  , usizeFromBeBytes := fun _ => some 0 }

/-- A multi-thread target whose operations all succeed trivially. -/
def mt1 : MTModel :=
  { readRegisters := fun _ => .ok []
  , writeRegisters := fun _ _ => .ok ()
  , readRegister := fun _ _ => .ok []
  , writeRegister := fun _ _ _ => .ok ()
  , readAddrs := fun _ _ _ => .ok []
  , writeAddrs := fun _ _ _ => .ok () }

theorem stop_sets_current_tids_witness :
    ((⟨7, .WithID 7, false⟩ : SessionState).current_mem_tid = 7
      ∧ (⟨7, .WithID 7, false⟩ : SessionState).current_resume_tid = .WithID 7)
    ∧ TgtCall.tid (.readRegs 7) = 7
    ∧ cActions ⟨7, .WithID 7, false⟩ = [some ⟨.Continue, some ⟨none, .WithID 7⟩⟩] :=
  ⟨⟨rfl, rfl⟩,
   (stop_sets_current_tids 7 ⟨7, .WithID 7, false⟩ rfl rfl arch1 mt1).2.2.1
     (.readRegs 7) (by decide),
   (stop_sets_current_tids 7 ⟨7, .WithID 7, false⟩ rfl rfl arch1 mt1).2.2.2.2.2.2.2.2.1⟩

/-- C5: the `check_gdb_interrupt` callback returns true exactly when
the peeked byte is `0x03` or the peek hit a transport error; it records
a deferred `ConnectionRead` exactly in the error case; run against a
healthy connection stream it consumes nothing (the stream is returned
unchanged) and answers by the head byte; and an iteration of the
single-thread resume loop whose callback recorded a transport error
surfaces `ConnectionRead` after `resume` returns. -/
theorem check_interrupt_behaviour (r : Except Unit (Option Nat)) (s : List Nat)
    (g b : Bool) (am : AgentModel) (st : SessionState)
    (s0 : StopReason) (rest : List STIter) :
    ((checkGdbInterrupt r).1 = true ↔ r = .ok (some 3) ∨ r = .error ())
    ∧ ((checkGdbInterrupt r).2 = some .ConnectionRead ↔ r = .error ())
    ∧ ((checkGdbInterrupt r).2 = none ↔ r ≠ .error ())
    ∧ (checkInterruptOnStream s).2 = s
    ∧ ((checkInterruptOnStream s).1 = true ↔ s.head? = some 3)
    ∧ doVcontST g b [some ⟨.Continue, none⟩] (⟨true, .ok s0, am⟩ :: rest) st
        = some (.error .ConnectionRead) := by
  refine ⟨?_, ?_, ?_, rfl, ?_, ?_⟩
  · rcases r with e | ov
    · cases e
      simp [checkGdbInterrupt]
    · rcases ov with _ | byte
      · simp [checkGdbInterrupt]
      · by_cases hb : byte = 3 <;> simp [checkGdbInterrupt, hb]
  · rcases r with e | ov
    · cases e
      simp [checkGdbInterrupt]
    · rcases ov with _ | byte
      · simp [checkGdbInterrupt]
      · by_cases hb : byte = 3 <;> simp [checkGdbInterrupt, hb]
  · rcases r with e | ov
    · cases e
      simp [checkGdbInterrupt]
    · rcases ov with _ | byte
      · simp [checkGdbInterrupt]
      · by_cases hb : byte = 3 <;> simp [checkGdbInterrupt, hb]
  · rcases hs : s.head? with _ | byte
    · simp [checkInterruptOnStream, streamPeek, checkGdbInterrupt, hs]
    · by_cases hb : byte = 3 <;>
        simp [checkInterruptOnStream, streamPeek, checkGdbInterrupt, hs, hb]
  · simp [doVcontST, nextParsed, parseOne, parseTid, Except.map]

/-- Modelled from the spec (§4.4): whether a handler status terminates
the session (only `Disconnect` does). -/
def statusEndsSession : HandlerStatus → Bool
  | .Disconnect _ => true
  | _ => false

/-- C6: `k` without extended mode writes nothing and disconnects with
reason `Kill`; with extended mode, `target.kill` is delegated
(`Some pid` for `vKill`, `None` for `k`); a true return writes `OK` and
disconnects with `Kill`, a false return is `NeedsOK` (so the dispatcher
writes `OK`) and the session stays alive. -/
theorem kill_handler (p : Nat) (kill : Option Nat → TgtOutcome Bool) :
    (handle_kill none .k = (.ok (.Disconnect .Kill, ""), [])
      ∧ finishBody (.Disconnect .Kill) "" = ""
      ∧ statusEndsSession (.Disconnect .Kill) = true)
    ∧ (kill (some p) = .ok true →
        handle_kill (some kill) (.vKill p) = (.ok (.Disconnect .Kill, "OK"), [some p]))
    ∧ (kill none = .ok true →
        handle_kill (some kill) .k = (.ok (.Disconnect .Kill, "OK"), [none]))
    ∧ (kill (some p) = .ok false →
        handle_kill (some kill) (.vKill p) = (.ok (.NeedsOK, ""), [some p])
          ∧ finishBody .NeedsOK "" = "OK" ∧ statusEndsSession .NeedsOK = false)
    ∧ (kill none = .ok false →
        handle_kill (some kill) .k = (.ok (.NeedsOK, ""), [none])) := by
  refine ⟨⟨rfl, rfl, rfl⟩, ?_, ?_, ?_, ?_⟩
  · intro h
    simp [handle_kill, h, handleErr]
  · intro h
    simp [handle_kill, h, handleErr]
  · intro h
    exact ⟨by simp [handle_kill, h, handleErr], rfl, rfl⟩
  · intro h
    simp [handle_kill, h, handleErr]

/-- A kill oracle that always asks for termination. -/
def killTrue : Option Nat → TgtOutcome Bool := fun _ => .ok true

theorem kill_handler_witness :
    killTrue (some 9) = .ok true
    ∧ handle_kill (some killTrue) (.vKill 9) = (.ok (.Disconnect .Kill, "OK"), [some 9]) :=
  ⟨rfl, (kill_handler 9 killTrue).2.1 rfl⟩

/-- C7: `qXfer:features:read` pagination over the trimmed XML bytes:
an offset at or past the end replies the bare `l`; a window reaching or
passing the end replies `l` plus the binary-encoded tail from `offset`;
otherwise the reply is `m` plus the binary-encoded window
`[offset, offset+len)`; with no XML the packet is `PacketUnexpected`. -/
theorem qxfer_pagination (raw : List Nat) (offset len : Nat) :
    (offset ≥ (trimBytes raw).length →
      handle_qXferFeaturesRead (some raw) offset len = .ok "l")
    ∧ (offset < (trimBytes raw).length → offset + len ≥ (trimBytes raw).length →
        handle_qXferFeaturesRead (some raw) offset len
          = .ok ("l" ++ bytesToStr (binEnc ((trimBytes raw).drop offset))))
    ∧ (offset + len < (trimBytes raw).length →
        handle_qXferFeaturesRead (some raw) offset len
          = .ok ("m" ++ bytesToStr (binEnc (((trimBytes raw).drop offset).take len))))
    ∧ handle_qXferFeaturesRead none offset len = .error .PacketUnexpected := by
  refine ⟨?_, ?_, ?_, rfl⟩
  · intro h
    simp only [handle_qXferFeaturesRead]
    rw [if_pos h]
  · intro h1 h2
    simp only [handle_qXferFeaturesRead]
    rw [if_neg (by omega), if_pos h2]
  · intro h
    simp only [handle_qXferFeaturesRead]
    rw [if_neg (by omega), if_neg (by omega)]

/-- The byte content of a small target-description document. -/
def xml0 : List Nat := strBytes "<target>armv4t</target>"

theorem qxfer_pagination_witness :
    100 ≥ (trimBytes xml0).length
    ∧ handle_qXferFeaturesRead (some xml0) 100 4 = .ok "l" :=
  ⟨by decide, (qxfer_pagination xml0 100 4).1 (by decide)⟩

/-- C8: the `H` packet: `Any` keeps the prior selector for both `Hg`
and `Hc`; `Hg` with `All` is `PacketUnexpected`; `Hg` with `WithID t`
sets `current_mem_tid`; `Hc` with `All`/`WithID t` sets
`current_resume_tid`; every non-error case replies `OK`. -/
theorem handle_H_cases (st : SessionState) (pid : Option IdKind) (t : Nat) :
    handle_H st .Other ⟨pid, .Any⟩ = .ok (.NeedsOK, st)
    ∧ handle_H st .Other ⟨pid, .All⟩ = .error .PacketUnexpected
    ∧ handle_H st .Other ⟨pid, .WithID t⟩
        = .ok (.NeedsOK, { st with current_mem_tid := t })
    ∧ handle_H st .StepContinue ⟨pid, .Any⟩ = .ok (.NeedsOK, st)
    ∧ handle_H st .StepContinue ⟨pid, .All⟩
        = .ok (.NeedsOK, { st with current_resume_tid := .All })
    ∧ handle_H st .StepContinue ⟨pid, .WithID t⟩
        = .ok (.NeedsOK, { st with current_resume_tid := .WithID t })
    ∧ finishBody .NeedsOK "" = "OK" :=
  ⟨rfl, rfl, rfl, rfl, rfl, rfl, rfl⟩

/-- C9 counterexample: in single-thread mode, a `vCont` whose sole
action is continue-with-signal makes the handler fail with
`PacketUnexpected` — not `ResumeWithSignalUnimplemented` — because the
lazy `filter_map` leaves no parsed action and `actions.next()` is
checked (and its `PacketUnexpected` propagated) before the deferred
parse error; the empty oracle list shows `resume` is never reached. -/
theorem resume_with_signal_counterexample :
    doVcontST false false [some ⟨.ContinueWithSig 5, none⟩] [] ⟨1, .All, false⟩
      = some (.error .PacketUnexpected)
    ∧ GdbError.PacketUnexpected ≠ GdbError.ResumeWithSignalUnimplemented := by
  constructor
  · simp [doVcontST, nextParsed, parseOne]
  · decide

/-- C9 (amended): a with-signal `vCont` action is itself never passed
to the target (its parse yields `ResumeWithSignalUnimplemented` and the
`filter_map` drops it) and the session terminates on a fatal error;
but in single-thread mode, when the with-signal action is the only one,
the reported error is `PacketUnexpected` (raised before `resume`), and
when a later plain action lets the resume proceed, the target is
resumed first and `ResumeWithSignalUnimplemented` is reported only
after `resume` returns. -/
theorem resume_with_signal_amended (sig : Nat) (th : Option ThreadId)
    (st : SessionState) (g b : Bool) (it : STIter) :
    parseOne (some ⟨.ContinueWithSig sig, th⟩) = .error .ResumeWithSignalUnimplemented
    ∧ parseOne (some ⟨.StepWithSig sig, th⟩) = .error .ResumeWithSignalUnimplemented
    ∧ errorIsFatal .ResumeWithSignalUnimplemented = true
    ∧ errorIsFatal .PacketUnexpected = true
    ∧ (∀ iters, doVcontST g b [some ⟨.ContinueWithSig sig, th⟩] iters st
        = some (.error .PacketUnexpected))
    ∧ (∀ iters, doVcontST g b [some ⟨.StepWithSig sig, th⟩] iters st
        = some (.error .PacketUnexpected))
    ∧ (∀ s0 : StopReason, it.result = .ok s0 →
        doVcontST g b [some ⟨.ContinueWithSig sig, th⟩, some ⟨.Step, none⟩] [it] st
          = some (.error .ResumeWithSignalUnimplemented)) := by
  refine ⟨rfl, rfl, rfl, rfl, ?_, ?_, ?_⟩
  · intro iters
    cases iters <;> simp [doVcontST, nextParsed, parseOne]
  · intro iters
    cases iters <;> simp [doVcontST, nextParsed, parseOne]
  · intro s0 hres
    simp [doVcontST, nextParsed, parseOne, parseTid, Except.map, hres]

theorem resume_with_signal_amended_witness :
    (STIter.mk false (.ok .DoneStep) am0).result = .ok StopReason.DoneStep
    ∧ doVcontST false false
        [some ⟨.ContinueWithSig 5, none⟩, some ⟨.Step, none⟩]
        [⟨false, .ok .DoneStep, am0⟩] ⟨1, .All, false⟩
      = some (.error .ResumeWithSignalUnimplemented) :=
  ⟨rfl,
   (resume_with_signal_amended 5 none ⟨1, .All, false⟩ false false
      ⟨false, .ok .DoneStep, am0⟩).2.2.2.2.2.2 .DoneStep rfl⟩

/-- An architecture whose register-id decoder recognises nothing. -/
def arch0 : ArchModel :=
  { fromRawId := fun _ => none
  , gdbDeserialize := fun _ => none
  , usizeFromBeBytes := fun _ => none }

/-- C10: a `p` packet whose raw register id the architecture does not
recognise produces an empty `Handled` reply body (no error, no target
call); a `P` packet with an unrecognised id fails with
`NonFatalError(22)`, which is surfaced as the reply `E16` and does not
end the session. -/
theorem p_P_unknown_register (arch : ArchModel) (mt : MTModel)
    (st : SessionState) (raw : Nat) (val : List Nat)
    (h : arch.fromRawId raw = none) :
    handle_p arch mt st raw = ⟨.ok (.Handled, ""), []⟩
    ∧ handle_P arch mt st raw val = ⟨.error (.NonFatalError 22), []⟩
    ∧ surfaceNonFatal (.NonFatalError 22) = some "E16"
    ∧ errorIsFatal (.NonFatalError 22) = false := by
  refine ⟨?_, ?_, rfl, rfl⟩
  · simp [handle_p, h]
  · simp [handle_P, h]

theorem p_P_unknown_register_witness :
    arch0.fromRawId 99 = none
    ∧ handle_P arch0 mt1 ⟨1, .All, false⟩ 99 [] = ⟨.error (.NonFatalError 22), []⟩ :=
  ⟨rfl, (p_P_unknown_register arch0 mt1 ⟨1, .All, false⟩ 99 [] rfl).2.1⟩

end Gdbstub
